import Mathlib

/-!
Shallow embedding of the trakt task-tracking server: the storage layer
(src/server/storage.ts, class SQLiteStorage) over the schema created by
src/server/database/migrations.ts, and the HTTP route handlers
(src/server/routes.ts) with the zod validation rules of
src/shared/schema.ts.

Modelling conventions:
- the SQLite database is a `Store`: the two tables as lists of rows in
  rowid (insertion) order, plus the AUTOINCREMENT counters;
- `CURRENT_TIMESTAMP` is an explicit `now : Nat` argument to the
  operations that read the clock;
- the constraints declared in migrations.ts (UNIQUE email, the FOREIGN KEY
  with ON DELETE CASCADE under PRAGMA foreign_keys = ON from
  src/server/config/database.ts, the CHECK constraints on status and
  priority) are part of the semantics of each statement: a violated
  constraint makes the statement fail with a `DbError` and leave the
  store unchanged, which is what better-sqlite3 does for a single
  statement;
- JavaScript number arithmetic on the small integers involved is modelled
  exactly (Nat / Int / Rat); JS truthiness tests on strings and numbers
  are modelled as tests against the empty string and zero;
- `ORDER BY` is modelled with `List.mergeSort`; SQL leaves the relative
  order of rows with equal keys unspecified, so claims about order assert
  sortedness, never a particular tie order.
-/

namespace Trakt

/-! ## Data model (migrations.ts, shared/schema.ts) -/

/-- Status strings admitted by the CHECK constraint on tasks.status. -/
def statusValues : List String := ["pending", "in-progress", "completed"]

/-- Priority strings admitted by the CHECK constraint on tasks.priority. -/
def priorityValues : List String := ["low", "medium", "high"]

/-- Row of the employees table. -/
structure Employee where
  id : Int
  name : String
  email : String
  department : String
  position : String
  createdAt : Nat
  deriving DecidableEq, Repr

/-- Row of the tasks table. Nullable columns are `Option`. -/
structure Task where
  id : Int
  title : String
  description : Option String
  status : String
  employeeId : Int
  dueDate : Option String
  priority : String
  createdAt : Nat
  updatedAt : Nat
  deriving DecidableEq, Repr

/-- Database state: both tables in rowid order plus AUTOINCREMENT counters. -/
structure Store where
  employees : List Employee
  tasks : List Task
  nextEmployeeId : Int
  nextTaskId : Int
  deriving DecidableEq, Repr

/-- Fresh database right after runMigrations, before seeding. -/
def emptyStore : Store := ⟨[], [], 1, 1⟩

/-- Constraint-violation signals raised by the database engine. -/
inductive DbError
  | uniqueEmail
  | foreignKey
  | checkViolation
  deriving DecidableEq, Repr

deriving instance DecidableEq for Except

/-- Result of a storage operation that can also report a missing row
(undefined in TypeScript) or a thrown constraint error. -/
inductive OpResult (α : Type)
  | notFound
  | err (e : DbError)
  | ok (val : α)
  deriving DecidableEq, Repr

/-- Validated input for createEmployee (insertEmployeeSchema output). -/
structure InsertEmployee where
  name : String
  email : String
  department : String
  position : String
  deriving DecidableEq, Repr

/-- Partial employee update (insertEmployeeSchema.partial() output):
`none` means the field was absent from the payload. -/
structure EmployeePatch where
  name : Option String := none
  email : Option String := none
  department : Option String := none
  position : Option String := none
  deriving DecidableEq, Repr

/-- Validated input for createTask (insertTaskSchema output): status and
priority have already been defaulted by zod, description and dueDate are
`none` when absent or null. -/
structure InsertTask where
  title : String
  description : Option String
  status : String
  employeeId : Int
  dueDate : Option String
  priority : String
  deriving DecidableEq, Repr

/-- Partial task update (insertTaskSchema.partial() output). The outer
`Option` is field presence; for the nullable columns the inner `Option`
distinguishes an explicit null from a string. -/
structure TaskPatch where
  title : Option String := none
  description : Option (Option String) := none
  status : Option String := none
  employeeId : Option Int := none
  dueDate : Option (Option String) := none
  priority : Option String := none
  deriving DecidableEq, Repr

/-! ## Storage layer (storage.ts, SQLiteStorage) -/

/-- Comparator for ORDER BY created_at DESC on bare tasks. -/
def taskCreatedDesc (a b : Task) : Bool := decide (b.createdAt ≤ a.createdAt)

/-- SELECT * FROM employees ORDER BY name. -/
def getAllEmployees (st : Store) : List Employee :=
  st.employees.mergeSort (fun a b => decide (a.name ≤ b.name))

/-- SELECT * FROM employees WHERE id = ?. -/
def getEmployeeById (st : Store) (id : Int) : Option Employee :=
  st.employees.find? (fun e => e.id == id)

/-- Employee together with its task list, as returned by
getEmployeeWithTasks. -/
structure EmployeeWithTasks where
  employee : Employee
  tasks : List Task
  deriving DecidableEq, Repr

/-- SQLiteStorage.getEmployeeWithTasks: the employee row, or undefined,
with its tasks ordered by created_at descending. -/
def getEmployeeWithTasks (st : Store) (id : Int) : Option EmployeeWithTasks :=
  match getEmployeeById st id with
  | none => none
  | some e =>
    some ⟨e, (st.tasks.filter (fun t => t.employeeId == id)).mergeSort taskCreatedDesc⟩

/-- SQLiteStorage.createEmployee: INSERT INTO employees; the UNIQUE
constraint on email makes the insert throw when the email is already
present. AUTOINCREMENT hands out a fresh rowid, so the re-select by
lastInsertRowid returns exactly the inserted row. -/
def createEmployee (st : Store) (now : Nat) (ins : InsertEmployee) :
    Store × Except DbError Employee :=
  if st.employees.any (fun e => e.email == ins.email) then
    (st, .error .uniqueEmail)
  else
    let e : Employee :=
      ⟨st.nextEmployeeId, ins.name, ins.email, ins.department, ins.position, now⟩
    ({ st with employees := st.employees ++ [e],
               nextEmployeeId := st.nextEmployeeId + 1 },
     .ok e)

/-- Per-row effect of the UPDATE employees SET ... statement built by
updateEmployee: only the supplied columns change. -/
def applyEmployeePatch (p : EmployeePatch) (e : Employee) : Employee :=
  { e with
    name := p.name.getD e.name,
    email := p.email.getD e.email,
    department := p.department.getD e.department,
    position := p.position.getD e.position }

/-- SQLiteStorage.updateEmployee: undefined when the id is absent, the
unchanged row when no field was supplied, a UNIQUE-constraint throw when
the new email belongs to a different row, otherwise the UPDATE followed
by a re-select. -/
def updateEmployee (st : Store) (id : Int) (p : EmployeePatch) :
    Store × OpResult Employee :=
  match getEmployeeById st id with
  | none => (st, .notFound)
  | some existing =>
    if p.name.isNone && p.email.isNone && p.department.isNone && p.position.isNone then
      (st, .ok existing)
    else if (match p.email with
             | some em => st.employees.any (fun e => e.id != id && e.email == em)
             | none => false) then
      (st, .err .uniqueEmail)
    else
      let st' : Store :=
        { st with employees :=
            st.employees.map (fun e => if e.id == id then applyEmployeePatch p e else e) }
      (st', match getEmployeeById st' id with
            | some e => .ok e
            | none => .notFound)

/-- SQLiteStorage.deleteEmployee: DELETE FROM employees WHERE id = ?; the
ON DELETE CASCADE foreign key (with foreign_keys = ON) removes every task
whose employee_id referenced a deleted row. Returns changes > 0. -/
def deleteEmployee (st : Store) (id : Int) : Store × Bool :=
  if st.employees.any (fun e => e.id == id) then
    ({ st with employees := st.employees.filter (fun e => !(e.id == id)),
               tasks := st.tasks.filter (fun t => !(t.employeeId == id)) },
     true)
  else
    (st, false)

/-- Task row joined with the owning employee name, as listed by
getAllTasks. -/
structure TaskRow where
  task : Task
  employeeName : String
  deriving DecidableEq, Repr

/-- Comparator for ORDER BY t.created_at DESC on joined rows. -/
def rowCreatedDesc (a b : TaskRow) : Bool := decide (b.task.createdAt ≤ a.task.createdAt)

/-- Optional query filters of getAllTasks. -/
structure TaskFilters where
  status : Option String := none
  employeeId : Option Int := none
  deriving DecidableEq, Repr

/-- FROM tasks t JOIN employees e ON t.employee_id = e.id. -/
def joinRows (st : Store) : List TaskRow :=
  st.tasks.flatMap (fun t =>
    st.employees.filterMap (fun e =>
      if e.id == t.employeeId then some ⟨t, e.name⟩ else none))

/-- SQLiteStorage.getAllTasks: the join, a WHERE condition per truthy
filter (JS truthiness: the empty string and 0 are falsy, so such filter
values add no condition), ORDER BY t.created_at DESC. -/
def getAllTasks (st : Store) (filters : Option TaskFilters) : List TaskRow :=
  let rows := joinRows st
  let rows :=
    match filters with
    | none => rows
    | some f =>
      let rows1 :=
        match f.status with
        | some s => if s == "" then rows else rows.filter (fun r => r.task.status == s)
        | none => rows
      match f.employeeId with
      | some eid => if eid == 0 then rows1 else rows1.filter (fun r => r.task.employeeId == eid)
      | none => rows1
  rows.mergeSort rowCreatedDesc

/-- Task row joined with owner name and email, as returned by getTaskById. -/
structure TaskDetail where
  task : Task
  employeeName : String
  employeeEmail : String
  deriving DecidableEq, Repr

/-- SQLiteStorage.getTaskById: join row for the given task id. -/
def getTaskById (st : Store) (id : Int) : Option TaskDetail :=
  match st.tasks.find? (fun t => t.id == id) with
  | none => none
  | some t =>
    (st.employees.find? (fun e => e.id == t.employeeId)).map
      (fun e => ⟨t, e.name, e.email⟩)

/-- JS expression `s || d` on strings: the empty string is falsy. -/
def strOrDefault (s d : String) : String := if s == "" then d else s

/-- JS expression `v || null` on an optional string: absent, null and the
empty string all store NULL. -/
def jsOrNull (v : Option String) : Option String :=
  match v with
  | some s => if s == "" then none else some s
  | none => none

/-- SQLiteStorage.createTask: INSERT INTO tasks with the `|| default`
coalescing from the source; the CHECK constraints and the FOREIGN KEY
constraint make the statement throw instead of inserting. -/
def createTask (st : Store) (now : Nat) (ins : InsertTask) :
    Store × Except DbError Task :=
  let statusVal := strOrDefault ins.status "pending"
  let priorityVal := strOrDefault ins.priority "medium"
  if !(statusValues.contains statusVal) then
    (st, .error .checkViolation)
  else if !(priorityValues.contains priorityVal) then
    (st, .error .checkViolation)
  else if (getEmployeeById st ins.employeeId).isNone then
    (st, .error .foreignKey)
  else
    let t : Task :=
      ⟨st.nextTaskId, ins.title, jsOrNull ins.description, statusVal,
       ins.employeeId, jsOrNull ins.dueDate, priorityVal, now, now⟩
    ({ st with tasks := st.tasks ++ [t], nextTaskId := st.nextTaskId + 1 },
     .ok t)

/-- Per-row effect of the UPDATE tasks SET ... statement built by
updateTask: updated_at is always in the SET list, the other columns only
when supplied. -/
def applyTaskPatch (now : Nat) (p : TaskPatch) (t : Task) : Task :=
  { t with
    title := p.title.getD t.title,
    description := match p.description with | some d => d | none => t.description,
    status := p.status.getD t.status,
    employeeId := p.employeeId.getD t.employeeId,
    dueDate := match p.dueDate with | some d => d | none => t.dueDate,
    priority := p.priority.getD t.priority,
    updatedAt := now }

/-- SQLiteStorage.updateTask: undefined when the id is absent; otherwise
the UPDATE always runs (its SET list always contains
updated_at = CURRENT_TIMESTAMP), subject to the CHECK constraints on a
supplied status or priority and the FOREIGN KEY constraint on a supplied
employee_id; then a re-select of the row. -/
def updateTask (st : Store) (now : Nat) (id : Int) (p : TaskPatch) :
    Store × OpResult Task :=
  match st.tasks.find? (fun t => t.id == id) with
  | none => (st, .notFound)
  | some _ =>
    if (match p.status with
        | some s => !(statusValues.contains s)
        | none => false) then
      (st, .err .checkViolation)
    else if (match p.priority with
             | some s => !(priorityValues.contains s)
             | none => false) then
      (st, .err .checkViolation)
    else if (match p.employeeId with
             | some eid => (getEmployeeById st eid).isNone
             | none => false) then
      (st, .err .foreignKey)
    else
      let st' : Store :=
        { st with tasks :=
            st.tasks.map (fun t => if t.id == id then applyTaskPatch now p t else t) }
      (st', match st'.tasks.find? (fun t => t.id == id) with
            | some t => .ok t
            | none => .notFound)

/-- SQLiteStorage.deleteTask: DELETE FROM tasks WHERE id = ?. -/
def deleteTask (st : Store) (id : Int) : Store × Bool :=
  if st.tasks.any (fun t => t.id == id) then
    ({ st with tasks := st.tasks.filter (fun t => !(t.id == id)) }, true)
  else
    (st, false)

/-- Per-status slice of the dashboard answer. -/
structure StatusCounts where
  pending : Nat
  inProgress : Nat
  completed : Nat
  deriving DecidableEq, Repr

/-- Per-employee slice of the dashboard answer. -/
structure EmployeeTaskCount where
  employeeId : Int
  employeeName : String
  taskCount : Nat
  deriving DecidableEq, Repr

/-- Comparator for ORDER BY taskCount DESC. -/
def countDesc (a b : EmployeeTaskCount) : Bool := decide (b.taskCount ≤ a.taskCount)

/-- Shape of the getDashboardStats answer. -/
structure DashboardStats where
  totalTasks : Nat
  completedTasks : Nat
  completionRate : Nat
  tasksByStatus : StatusCounts
  tasksByEmployee : List EmployeeTaskCount
  deriving DecidableEq, Repr

/-- SQLiteStorage.getDashboardStats: the COUNT queries, the completion
rate Math.round((completed / total) * 100) with the total > 0 guard
(modelled exactly on rationals: Math.round of a nonnegative value is
floor of the value plus one half, so the rate is (200 * completed
+ total) / (2 * total) in integer division), and the LEFT JOIN GROUP BY
per-employee counts ordered by count descending. -/
def getDashboardStats (st : Store) : DashboardStats :=
  let total := st.tasks.length
  let completed := (st.tasks.filter (fun t => t.status == "completed")).length
  let pending := (st.tasks.filter (fun t => t.status == "pending")).length
  let inProgress := (st.tasks.filter (fun t => t.status == "in-progress")).length
  { totalTasks := total,
    completedTasks := completed,
    completionRate := if 0 < total then (200 * completed + total) / (2 * total) else 0,
    tasksByStatus := ⟨pending, inProgress, completed⟩,
    tasksByEmployee :=
      (st.employees.map (fun e =>
        ⟨e.id, e.name, (st.tasks.filter (fun t => t.employeeId == e.id)).length⟩)).mergeSort
        countDesc }

/-! ## Validation (shared/schema.ts) and JS numeric parsing -/

/-- Model of the zod .email() format check: one at sign splitting a
nonempty local part from a domain that contains a dot and neither starts
nor ends with one. The claims below never depend on the exact boundary
of this format, only on clearly valid or clearly absent emails. -/
def validEmail (s : String) : Bool :=
  let cs := s.toList
  let localPart := cs.takeWhile (fun c => c != '@')
  let rest := cs.dropWhile (fun c => c != '@')
  match rest with
  | '@' :: domainPart =>
    !localPart.isEmpty &&
    !domainPart.isEmpty &&
    domainPart.all (fun c => c != '@') &&
    domainPart.any (fun c => c == '.') &&
    domainPart.head? != some '.' &&
    domainPart.getLast? != some '.'
  | _ => false

/-- Shape check of the dueDate regex: four digits, a dash, two digits, a
dash, two digits, nothing else. -/
def isDateShape (s : String) : Bool :=
  match s.toList with
  | [y1, y2, y3, y4, h1, m1, m2, h2, d1, d2] =>
    y1.isDigit && y2.isDigit && y3.isDigit && y4.isDigit &&
    h1 == '-' && m1.isDigit && m2.isDigit &&
    h2 == '-' && d1.isDigit && d2.isDigit
  | _ => false

/-- Request body of the employee endpoints as parsed JSON: `none` is an
absent field. Payloads of the wrong JSON type are outside this model;
zod rejects them with its type error messages. -/
structure EmployeeBody where
  name : Option String := none
  email : Option String := none
  department : Option String := none
  position : Option String := none
  deriving DecidableEq, Repr

/-- Validation messages of one employee field in schema order. -/
def employeeFieldErrors (b : EmployeeBody) : List String :=
  (match b.name with
   | none => ["Name is required"]
   | some s =>
     (if s.length < 1 then ["Name is required"] else []) ++
     (if 100 < s.length then ["Name must be less than 100 characters"] else [])) ++
  (match b.email with
   | none => ["Email is required"]
   | some s =>
     (if s.length < 1 then ["Email is required"] else []) ++
     (if !validEmail s then ["Invalid email format"] else [])) ++
  (match b.department with
   | none => ["Department is required"]
   | some s => if s.length < 1 then ["Department is required"] else []) ++
  (match b.position with
   | none => ["Position is required"]
   | some s => if s.length < 1 then ["Position is required"] else [])

/-- insertEmployeeSchema.safeParse: every violated rule is collected and
the messages are comma-joined by the route handler. -/
def validateEmployeeBody (b : EmployeeBody) : Except String InsertEmployee :=
  let errs := employeeFieldErrors b
  if errs.isEmpty then
    match b.name, b.email, b.department, b.position with
    | some n, some em, some d, some p => .ok ⟨n, em, d, p⟩
    | _, _, _, _ => .error (String.intercalate ", " errs)
  else
    .error (String.intercalate ", " errs)

/-- insertEmployeeSchema.partial().safeParse: each supplied field must
still satisfy its rule; absent fields stay absent. -/
def validateEmployeePatchBody (b : EmployeeBody) : Except String EmployeePatch :=
  let errs :=
    (match b.name with
     | none => []
     | some s =>
       (if s.length < 1 then ["Name is required"] else []) ++
       (if 100 < s.length then ["Name must be less than 100 characters"] else [])) ++
    (match b.email with
     | none => []
     | some s =>
       (if s.length < 1 then ["Email is required"] else []) ++
       (if !validEmail s then ["Invalid email format"] else [])) ++
    (match b.department with
     | none => []
     | some s => if s.length < 1 then ["Department is required"] else []) ++
    (match b.position with
     | none => []
     | some s => if s.length < 1 then ["Position is required"] else [])
  if errs.isEmpty then .ok ⟨b.name, b.email, b.department, b.position⟩
  else .error (String.intercalate ", " errs)

/-- Request body of the task endpoints as parsed JSON. The outer `Option`
is field presence; for the nullable fields the inner `Option`
distinguishes an explicit null. employeeId must already be a JSON
number; other JSON types are outside this model. -/
structure TaskBody where
  title : Option String := none
  description : Option (Option String) := none
  status : Option String := none
  employeeId : Option Int := none
  dueDate : Option (Option String) := none
  priority : Option String := none
  deriving DecidableEq, Repr

/-- Validation messages of one task field in schema order. -/
def taskFieldErrors (b : TaskBody) : List String :=
  (match b.title with
   | none => ["Title is required"]
   | some s =>
     (if s.length < 1 then ["Title is required"] else []) ++
     (if 200 < s.length then ["Title must be less than 200 characters"] else [])) ++
  (match b.description with
   | some (some s) =>
     if 1000 < s.length then ["Description must be less than 1000 characters"] else []
   | _ => []) ++
  (match b.status with
   | some s =>
     if statusValues.contains s then []
     else ["Status must be pending, in-progress, or completed"]
   | none => []) ++
  (match b.employeeId with
   | none => ["Employee ID is required"]
   | some i => if i ≤ 0 then ["Employee ID must be positive"] else []) ++
  (match b.dueDate with
   | some (some s) =>
     if isDateShape s then [] else ["Due date must be in YYYY-MM-DD format"]
   | _ => []) ++
  (match b.priority with
   | some s =>
     if priorityValues.contains s then []
     else ["Priority must be low, medium, or high"]
   | none => [])

/-- insertTaskSchema.safeParse: collects every violated rule, applies the
status and priority defaults, and flattens null and absent for the
nullable fields the way the zod output is consumed downstream. -/
def validateTaskBody (b : TaskBody) : Except String InsertTask :=
  let errs := taskFieldErrors b
  if errs.isEmpty then
    match b.title, b.employeeId with
    | some t, some i =>
      .ok ⟨t, b.description.join, b.status.getD "pending", i,
           b.dueDate.join, b.priority.getD "medium"⟩
    | _, _ => .error (String.intercalate ", " errs)
  else
    .error (String.intercalate ", " errs)

/-- insertTaskSchema.partial().safeParse: each supplied field must still
satisfy its rule; the defaults do not fire because a zod optional passes
an absent value through without consulting the wrapped default. -/
def validateTaskPatchBody (b : TaskBody) : Except String TaskPatch :=
  let errs :=
    (match b.title with
     | none => []
     | some s =>
       (if s.length < 1 then ["Title is required"] else []) ++
       (if 200 < s.length then ["Title must be less than 200 characters"] else [])) ++
    (match b.description with
     | some (some s) =>
       if 1000 < s.length then ["Description must be less than 1000 characters"] else []
     | _ => []) ++
    (match b.status with
     | some s =>
       if statusValues.contains s then []
       else ["Status must be pending, in-progress, or completed"]
     | none => []) ++
    (match b.employeeId with
     | none => []
     | some i => if i ≤ 0 then ["Employee ID must be positive"] else []) ++
    (match b.dueDate with
     | some (some s) =>
       if isDateShape s then [] else ["Due date must be in YYYY-MM-DD format"]
     | _ => []) ++
    (match b.priority with
     | some s =>
       if priorityValues.contains s then []
       else ["Priority must be low, medium, or high"]
     | none => [])
  if errs.isEmpty then
    .ok ⟨b.title, b.description, b.status, b.employeeId, b.dueDate, b.priority⟩
  else
    .error (String.intercalate ", " errs)

/-- ECMAScript WhiteSpace and LineTerminator code points trimmed by
parseInt: TAB LF VT FF CR SP, NBSP, the Unicode Zs spaces, LS, PS and
ZWNBSP. -/
def jsWhitespace (c : Char) : Bool :=
  c.toNat == 0x9 || c.toNat == 0xA || c.toNat == 0xB || c.toNat == 0xC ||
  c.toNat == 0xD || c.toNat == 0x20 || c.toNat == 0xA0 || c.toNat == 0x1680 ||
  (0x2000 ≤ c.toNat && c.toNat ≤ 0x200A) || c.toNat == 0x2028 || c.toNat == 0x2029 ||
  c.toNat == 0x202F || c.toNat == 0x205F || c.toNat == 0x3000 || c.toNat == 0xFEFF

/-- Value of a character as a digit in the given radix, as parseInt reads
digits: decimal digits, then letters from ten upward, rejected when not
below the radix. -/
def charDigitVal (radix : Nat) (c : Char) : Option Nat :=
  let v : Option Nat :=
    if c.isDigit then some (c.toNat - '0'.toNat)
    else if 'a' ≤ c && c ≤ 'z' then some (c.toNat - 'a'.toNat + 10)
    else if 'A' ≤ c && c ≤ 'Z' then some (c.toNat - 'A'.toNat + 10)
    else none
  match v with
  | some n => if n < radix then some n else none
  | none => none

/-- JavaScript parseInt(s) with the default radix: ECMAScript whitespace
is trimmed, an optional sign is read, a 0x or 0X prefix switches to
radix sixteen, then the maximal run of digits of the active radix is
read; `none` models NaN (no digit found, as for an empty string, a bare
sign, or a bare 0x prefix). -/
def parseIntJs (s : String) : Option Int :=
  let cs := s.toList.dropWhile jsWhitespace
  let signAndRest : Int × List Char :=
    match cs with
    | '-' :: rest => (-1, rest)
    | '+' :: rest => (1, rest)
    | _ => (1, cs)
  let radixAndRest : Nat × List Char :=
    match signAndRest.2 with
    | '0' :: 'x' :: rest => (16, rest)
    | '0' :: 'X' :: rest => (16, rest)
    | rest => (10, rest)
  let digits := radixAndRest.2.takeWhile (fun c => (charDigitVal radixAndRest.1 c).isSome)
  if digits.isEmpty then none
  else some (signAndRest.1 * (Int.ofNat (digits.foldl
    (fun acc c => acc * radixAndRest.1 + (charDigitVal radixAndRest.1 c).getD 0) 0)))

/-! ## API layer (routes.ts) -/

/-- HTTP outcome of a handler: exactly one response per request. -/
inductive RouteResult (α : Type)
  | success (code : Nat) (val : α)
  | failure (code : Nat) (error : String)
  deriving DecidableEq, Repr

/-- Status code of a response. -/
def RouteResult.status {α : Type} : RouteResult α → Nat
  | .success c _ => c
  | .failure c _ => c

/-- GET /api/employees/:id. -/
def getEmployeeRoute (st : Store) (idStr : String) : RouteResult EmployeeWithTasks :=
  match parseIntJs idStr with
  | none => .failure 400 "Invalid employee ID"
  | some id =>
    match getEmployeeWithTasks st id with
    | none => .failure 404 "Employee not found"
    | some ew => .success 200 ew

/-- POST /api/employees: validate, insert, map a UNIQUE-constraint throw
to 400 with the duplicate-email message and anything else thrown to 500. -/
def postEmployeesRoute (st : Store) (now : Nat) (body : EmployeeBody) :
    Store × RouteResult Employee :=
  match validateEmployeeBody body with
  | .error msg => (st, .failure 400 msg)
  | .ok ins =>
    match createEmployee st now ins with
    | (st', .ok e) => (st', .success 201 e)
    | (st', .error .uniqueEmail) => (st', .failure 400 "Email already exists")
    | (st', .error _) => (st', .failure 500 "Failed to create employee")

/-- PUT /api/employees/:id. -/
def putEmployeeRoute (st : Store) (idStr : String) (body : EmployeeBody) :
    Store × RouteResult Employee :=
  match parseIntJs idStr with
  | none => (st, .failure 400 "Invalid employee ID")
  | some id =>
    match validateEmployeePatchBody body with
    | .error msg => (st, .failure 400 msg)
    | .ok p =>
      match updateEmployee st id p with
      | (st', .notFound) => (st', .failure 404 "Employee not found")
      | (st', .ok e) => (st', .success 200 e)
      | (st', .err .uniqueEmail) => (st', .failure 400 "Email already exists")
      | (st', .err _) => (st', .failure 500 "Failed to update employee")

/-- DELETE /api/employees/:id. -/
def deleteEmployeeRoute (st : Store) (idStr : String) :
    Store × RouteResult String :=
  match parseIntJs idStr with
  | none => (st, .failure 400 "Invalid employee ID")
  | some id =>
    match deleteEmployee st id with
    | (st', true) => (st', .success 200 "Employee deleted successfully")
    | (st', false) => (st', .failure 404 "Employee not found")

/-- GET /api/tasks with the status and employee_id query strings. The
source computes employeeId with a truthiness test on the raw query value
(so an empty string skips both parseInt and the NaN check), rejects a
truthy status outside the enum, then a truthy employee_id that parsed to
NaN, and otherwise forwards both filters to storage. -/
def getTasksRoute (st : Store) (statusQ : Option String) (employeeIdQ : Option String) :
    RouteResult (List TaskRow) :=
  let empRaw := employeeIdQ.getD ""
  let empTruthy := empRaw != ""
  let employeeId : Option Int := if empTruthy then parseIntJs empRaw else none
  let statusTruthy := (statusQ.getD "") != ""
  if statusTruthy && !(statusValues.contains (statusQ.getD "")) then
    .failure 400 "Invalid status value"
  else if empTruthy && employeeId.isNone then
    .failure 400 "Invalid employee_id"
  else
    .success 200 (getAllTasks st (some ⟨statusQ, employeeId⟩))

/-- GET /api/tasks/:id. -/
def getTaskRoute (st : Store) (idStr : String) : RouteResult TaskDetail :=
  match parseIntJs idStr with
  | none => .failure 400 "Invalid task ID"
  | some id =>
    match getTaskById st id with
    | none => .failure 404 "Task not found"
    | some t => .success 200 t

/-- POST /api/tasks: validate, check the referenced employee exists and
answer 400 when it does not, then insert. -/
def postTasksRoute (st : Store) (now : Nat) (body : TaskBody) :
    Store × RouteResult Task :=
  match validateTaskBody body with
  | .error msg => (st, .failure 400 msg)
  | .ok ins =>
    match getEmployeeById st ins.employeeId with
    | none => (st, .failure 400 "Employee not found")
    | some _ =>
      match createTask st now ins with
      | (st', .ok t) => (st', .success 201 t)
      | (st', .error _) => (st', .failure 500 "Failed to create task")

/-- PUT /api/tasks/:id: the employee pre-check runs only when the patch
carries a truthy employeeId. -/
def putTaskRoute (st : Store) (now : Nat) (idStr : String) (body : TaskBody) :
    Store × RouteResult Task :=
  match parseIntJs idStr with
  | none => (st, .failure 400 "Invalid task ID")
  | some id =>
    match validateTaskPatchBody body with
    | .error msg => (st, .failure 400 msg)
    | .ok p =>
      if (match p.employeeId with
          | some eid => eid != 0 && (getEmployeeById st eid).isNone
          | none => false) then
        (st, .failure 400 "Employee not found")
      else
        match updateTask st now id p with
        | (st', .notFound) => (st', .failure 404 "Task not found")
        | (st', .ok t) => (st', .success 200 t)
        | (st', .err _) => (st', .failure 500 "Failed to update task")

/-- DELETE /api/tasks/:id. -/
def deleteTaskRoute (st : Store) (idStr : String) : Store × RouteResult String :=
  match parseIntJs idStr with
  | none => (st, .failure 400 "Invalid task ID")
  | some id =>
    match deleteTask st id with
    | (st', true) => (st', .success 200 "Task deleted successfully")
    | (st', false) => (st', .failure 404 "Task not found")

/-! ## Reachable store states -/

/-- One store-modifying storage call. -/
inductive Op
  | createEmployee (now : Nat) (ins : InsertEmployee)
  | updateEmployee (id : Int) (p : EmployeePatch)
  | deleteEmployee (id : Int)
  | createTask (now : Nat) (ins : InsertTask)
  | updateTask (now : Nat) (id : Int) (p : TaskPatch)
  | deleteTask (id : Int)

/-- Store after one storage call; a call that fails or finds no row
leaves the store as it was. -/
def applyOp (st : Store) : Op → Store
  | .createEmployee now ins => (createEmployee st now ins).1
  | .updateEmployee id p => (updateEmployee st id p).1
  | .deleteEmployee id => (deleteEmployee st id).1
  | .createTask now ins => (createTask st now ins).1
  | .updateTask now id p => (updateTask st now id p).1
  | .deleteTask id => (deleteTask st id).1

/-- Stores reachable from the fresh database through storage calls. -/
inductive Reachable : Store → Prop
  | init : Reachable emptyStore
  | step {st : Store} (op : Op) : Reachable st → Reachable (applyOp st op)

/-- Referential integrity: every task points at an existing employee. -/
def RefIntegrity (st : Store) : Prop :=
  ∀ t ∈ st.tasks, ∃ e ∈ st.employees, e.id = t.employeeId

/-- Admissibility of a task patch for the constraints checked by the
UPDATE statement: a supplied status or priority is in its CHECK list and
a supplied employee_id resolves. -/
def patchAdmissible (st : Store) (p : TaskPatch) : Bool :=
  (match p.status with
   | some s => statusValues.contains s
   | none => true) &&
  (match p.priority with
   | some s => priorityValues.contains s
   | none => true) &&
  (match p.employeeId with
   | some eid => (getEmployeeById st eid).isSome
   | none => true)

/-! ## Helper lemmas -/

/-- Successful employee lookup yields a member row with the looked-up id. -/
theorem mem_id_of_getEmployeeById {st : Store} {i : Int} {e : Employee}
    (h : getEmployeeById st i = some e) : e ∈ st.employees ∧ e.id = i := by
  unfold getEmployeeById at h
  refine ⟨List.mem_of_find?_eq_some h, ?_⟩
  simpa using List.find?_some h

/-- Searching a list after an update that rewrites exactly the rows
matched by the search predicate, with the rewrite preserving the
predicate, finds the rewritten version of the original hit. -/
theorem find?_map_ite {α : Type} (q : α → Bool) (g : α → α)
    (hg : ∀ a, q a = true → q (g a) = true) (l : List α) :
    (l.map (fun a => if q a then g a else a)).find? q = (l.find? q).map g := by
  induction l with
  | nil => rfl
  | cons a l ih =>
    by_cases h : q a = true
    · simp [List.find?_cons, h, hg a h]
    · have h' : q a = false := by revert h; cases q a <;> simp
      simp [List.find?_cons, h', ih]

/-- Membership in the tasks-employees join. -/
theorem mem_joinRows {st : Store} {r : TaskRow} :
    r ∈ joinRows st ↔
      ∃ t ∈ st.tasks, ∃ e ∈ st.employees, e.id = t.employeeId ∧ r = ⟨t, e.name⟩ := by
  simp only [joinRows, List.mem_flatMap, List.mem_filterMap]
  constructor
  · rintro ⟨t, ht, e, he, hr⟩
    by_cases hc : e.id == t.employeeId
    · rw [if_pos hc] at hr
      exact ⟨t, ht, e, he, by simpa using hc, by simpa using hr.symm⟩
    · rw [if_neg hc] at hr
      cases hr
  · rintro ⟨t, ht, e, he, hid, hr⟩
    exact ⟨t, ht, e, he, by simp [hid, hr]⟩

/-- Membership in an unfiltered listing. -/
theorem mem_getAllTasks_none {st : Store} {r : TaskRow} :
    r ∈ getAllTasks st none ↔ r ∈ joinRows st := by
  unfold getAllTasks
  exact (List.mergeSort_perm _ _).mem_iff

/-- Every listing is ordered by task creation time descending. -/
theorem pairwise_getAllTasks (st : Store) (f : Option TaskFilters) :
    (getAllTasks st f).Pairwise (fun a b => b.task.createdAt ≤ a.task.createdAt) := by
  unfold getAllTasks
  refine List.Pairwise.imp ?_ (List.sorted_mergeSort ?_ ?_ _)
  · intro a b h
    simpa [rowCreatedDesc] using h
  · intro a b c hab hbc
    simp only [rowCreatedDesc, decide_eq_true_eq] at *
    omega
  · intro a b
    simp only [rowCreatedDesc]
    rcases Nat.le_total b.task.createdAt a.task.createdAt with h | h <;> simp [h]

/-- After deleteEmployee no employee row carries the deleted id. -/
theorem deleteEmployee_no_employee {st : Store} {id : Int} :
    ∀ e ∈ (deleteEmployee st id).1.employees, e.id ≠ id := by
  intro e he
  unfold deleteEmployee at he
  by_cases hc : st.employees.any (fun e => e.id == id) = true
  · rw [if_pos hc] at he
    have := (List.mem_filter.mp he).2
    simpa using this
  · rw [if_neg hc] at he
    rw [List.any_eq_true] at hc
    push_neg at hc
    intro hid
    exact absurd (by simpa using hid) (hc e he)

/-! ## Claims -/

/-- C9: a filter whose status is the empty string, or whose employeeId is
0, is falsy in the source and therefore adds no WHERE condition: the
listing is the same as with that filter absent. -/
theorem spec_c9 (st : Store) (f : Option Int) (s : Option String) :
    getAllTasks st (some ⟨some "", f⟩) = getAllTasks st (some ⟨none, f⟩)
    ∧ getAllTasks st (some ⟨s, some 0⟩) = getAllTasks st (some ⟨s, none⟩) := by
  constructor
  · cases f <;> simp [getAllTasks]
  · cases s <;> simp [getAllTasks]

/-- C2: creating an employee whose email already exists makes the insert
fail on the UNIQUE constraint with the store unchanged, and the route
surfaces it as 400 with the duplicate-email message. -/
theorem spec_c2 (st : Store) (now : Nat) (body : EmployeeBody) (ins : InsertEmployee)
    (e0 : Employee) (hval : validateEmployeeBody body = .ok ins)
    (hmem : e0 ∈ st.employees) (hemail : e0.email = ins.email) :
    createEmployee st now ins = (st, .error .uniqueEmail)
    ∧ postEmployeesRoute st now body = (st, .failure 400 "Email already exists") := by
  have hany : st.employees.any (fun e => e.email == ins.email) = true := by
    rw [List.any_eq_true]
    exact ⟨e0, hmem, by simp [hemail]⟩
  have hce : createEmployee st now ins = (st, .error .uniqueEmail) := by
    unfold createEmployee
    rw [if_pos hany]
  refine ⟨hce, ?_⟩
  unfold postEmployeesRoute
  rw [hval]
  simp only [hce]

/-- Witness for C2 at a concrete store and payload. -/
theorem spec_c2_witness :
    postEmployeesRoute ⟨[⟨1, "Ann", "ann@example.com", "Eng", "Dev", 0⟩], [], 2, 1⟩ 7
      ⟨some "Bob", some "ann@example.com", some "Sales", some "Rep"⟩
    = (⟨[⟨1, "Ann", "ann@example.com", "Eng", "Dev", 0⟩], [], 2, 1⟩,
       .failure 400 "Email already exists") :=
  (spec_c2 ⟨[⟨1, "Ann", "ann@example.com", "Eng", "Dev", 0⟩], [], 2, 1⟩ 7
    ⟨some "Bob", some "ann@example.com", some "Sales", some "Rep"⟩
    ⟨"Bob", "ann@example.com", "Sales", "Rep"⟩
    ⟨1, "Ann", "ann@example.com", "Eng", "Dev", 0⟩
    (by decide) (by decide) (by decide)).2

/-- C6: a validated task payload whose employeeId resolves to no employee
is answered 400 (a client error, neither 404 nor 500) and no task row is
inserted. -/
theorem spec_c6 (st : Store) (now : Nat) (body : TaskBody) (ins : InsertTask)
    (hval : validateTaskBody body = .ok ins)
    (hemp : getEmployeeById st ins.employeeId = none) :
    postTasksRoute st now body = (st, .failure 400 "Employee not found")
    ∧ (postTasksRoute st now body).1.tasks = st.tasks := by
  have h : postTasksRoute st now body = (st, .failure 400 "Employee not found") := by
    unfold postTasksRoute
    rw [hval]
    simp only [hemp]
  exact ⟨h, by rw [h]⟩

/-- Witness for C6 at a concrete store and payload. -/
theorem spec_c6_witness :
    postTasksRoute emptyStore 3 ⟨some "T", none, none, some 5, none, none⟩
    = (emptyStore, .failure 400 "Employee not found") :=
  (spec_c6 emptyStore 3 ⟨some "T", none, none, some 5, none, none⟩
    ⟨"T", none, "pending", 5, none, "medium"⟩ (by decide) (by decide)).1

/-- C10: an employee update whose supplied email belongs to a different
row fails on the UNIQUE constraint and the store is completely unchanged:
the target row keeps every prior value and no other row moves. -/
theorem spec_c10 (st : Store) (id : Int) (p : EmployeePatch) (em : String)
    (ex e' : Employee)
    (hex : getEmployeeById st id = some ex) (hem : p.email = some em)
    (he' : e' ∈ st.employees) (hne : e'.id ≠ id) (hcol : e'.email = em) :
    updateEmployee st id p = (st, .err .uniqueEmail) := by
  have hany : st.employees.any (fun e => e.id != id && e.email == em) = true := by
    rw [List.any_eq_true]
    refine ⟨e', he', ?_⟩
    simp [hcol, hne]
  unfold updateEmployee
  rw [hex]
  have hflags : (p.name.isNone && p.email.isNone && p.department.isNone
      && p.position.isNone) = false := by
    rw [hem]
    simp
  rw [hflags, hem]
  simp [hany]

/-- Witness for C10 at a concrete store and patch. -/
theorem spec_c10_witness :
    updateEmployee
      ⟨[⟨1, "Ann", "ann@example.com", "Eng", "Dev", 0⟩,
        ⟨2, "Bob", "bob@example.com", "Sales", "Rep", 0⟩], [], 3, 1⟩
      2 ⟨none, some "ann@example.com", none, none⟩
    = (⟨[⟨1, "Ann", "ann@example.com", "Eng", "Dev", 0⟩,
         ⟨2, "Bob", "bob@example.com", "Sales", "Rep", 0⟩], [], 3, 1⟩,
       .err .uniqueEmail) :=
  spec_c10
    ⟨[⟨1, "Ann", "ann@example.com", "Eng", "Dev", 0⟩,
      ⟨2, "Bob", "bob@example.com", "Sales", "Rep", 0⟩], [], 3, 1⟩
    2 ⟨none, some "ann@example.com", none, none⟩ "ann@example.com"
    ⟨2, "Bob", "bob@example.com", "Sales", "Rep", 0⟩
    ⟨1, "Ann", "ann@example.com", "Eng", "Dev", 0⟩
    (by decide) (by decide) (by decide) (by decide) (by decide)

/-- C5: updateTask answers not-found for a missing id; on an existing id
with an admissible patch it rewrites exactly the addressed row, applying
the supplied fields and nothing else while always stamping updatedAt
with the current time; with the empty patch only updatedAt moves. -/
theorem spec_c5 (st : Store) (now : Nat) (id : Int) (p : TaskPatch) :
    (st.tasks.find? (fun t => t.id == id) = none →
      updateTask st now id p = (st, .notFound))
    ∧ (∀ t, st.tasks.find? (fun t => t.id == id) = some t →
        patchAdmissible st p = true →
        updateTask st now id p =
          ({ st with tasks :=
              st.tasks.map (fun u => if u.id == id then applyTaskPatch now p u else u) },
           .ok { id := t.id,
                 title := p.title.getD t.title,
                 description := match p.description with
                                | some d => d
                                | none => t.description,
                 status := p.status.getD t.status,
                 employeeId := p.employeeId.getD t.employeeId,
                 dueDate := match p.dueDate with
                            | some d => d
                            | none => t.dueDate,
                 priority := p.priority.getD t.priority,
                 createdAt := t.createdAt,
                 updatedAt := now }))
    ∧ (∀ t, st.tasks.find? (fun t => t.id == id) = some t →
        updateTask st now id ⟨none, none, none, none, none, none⟩ =
          ({ st with tasks :=
              st.tasks.map (fun u => if u.id == id then { u with updatedAt := now } else u) },
           .ok { t with updatedAt := now })) := by
  have hfind : ∀ (q : TaskPatch),
      (st.tasks.map (fun u => if u.id == id then applyTaskPatch now q u else u)).find?
        (fun t => t.id == id)
      = (st.tasks.find? (fun t => t.id == id)).map (applyTaskPatch now q) := by
    intro q
    exact find?_map_ite (fun t => t.id == id) (applyTaskPatch now q) (fun a h => h) st.tasks
  refine ⟨?_, ?_, ?_⟩
  · intro h
    unfold updateTask
    rw [h]
  · intro t ht hadm
    simp only [patchAdmissible, Bool.and_eq_true] at hadm
    have h1 : (match p.status with
               | some s => !(statusValues.contains s)
               | none => false) = false := by
      rcases hps : p.status with _ | s
      · rfl
      · simp only [hps] at hadm ⊢
        rw [hadm.1.1]
        rfl
    have h2 : (match p.priority with
               | some s => !(priorityValues.contains s)
               | none => false) = false := by
      rcases hpp : p.priority with _ | s
      · rfl
      · simp only [hpp] at hadm ⊢
        rw [hadm.1.2]
        rfl
    have h3 : (match p.employeeId with
               | some eid => (getEmployeeById st eid).isNone
               | none => false) = false := by
      rcases hpe : p.employeeId with _ | eid
      · rfl
      · simp only [hpe] at hadm ⊢
        rcases hgo : getEmployeeById st eid with _ | e
        · rw [hgo] at hadm
          exact absurd hadm.2 (by simp)
        · rfl
    unfold updateTask
    rw [ht, h1, h2, h3]
    simp only [Bool.false_eq_true, if_false, hfind p, ht, Option.map_some]
    rfl
  · intro t ht
    unfold updateTask
    rw [ht]
    simp only [hfind ⟨none, none, none, none, none, none⟩, ht, Option.map_some]
    rfl

/-- Witness for C5 at a concrete store, task and patch. -/
theorem spec_c5_witness :
    updateTask
      ⟨[⟨1, "Ann", "ann@example.com", "Eng", "Dev", 0⟩],
       [⟨1, "T", none, "pending", 1, none, "medium", 2, 2⟩], 2, 2⟩
      9 1 ⟨none, none, some "completed", none, none, none⟩
    = (⟨[⟨1, "Ann", "ann@example.com", "Eng", "Dev", 0⟩],
        [⟨1, "T", none, "completed", 1, none, "medium", 2, 9⟩], 2, 2⟩,
       .ok ⟨1, "T", none, "completed", 1, none, "medium", 2, 9⟩) := by
  have h := (spec_c5
    ⟨[⟨1, "Ann", "ann@example.com", "Eng", "Dev", 0⟩],
     [⟨1, "T", none, "pending", 1, none, "medium", 2, 2⟩], 2, 2⟩
    9 1 ⟨none, none, some "completed", none, none, none⟩).2.1
    ⟨1, "T", none, "pending", 1, none, "medium", 2, 2⟩ (by decide) (by decide)
  simpa using h

/-- createEmployee preserves referential integrity: tasks are untouched
and the employee table only grows. -/
theorem refIntegrity_createEmployee (st : Store) (now : Nat) (ins : InsertEmployee)
    (h : RefIntegrity st) : RefIntegrity (createEmployee st now ins).1 := by
  unfold createEmployee
  split
  · exact h
  · intro t ht
    obtain ⟨e, he, heq⟩ := h t ht
    exact ⟨e, List.mem_append_left _ he, heq⟩

/-- updateEmployee preserves referential integrity: the per-row rewrite
keeps every employee id. -/
theorem refIntegrity_updateEmployee (st : Store) (id : Int) (p : EmployeePatch)
    (h : RefIntegrity st) : RefIntegrity (updateEmployee st id p).1 := by
  unfold updateEmployee
  split
  · exact h
  · split
    · exact h
    · split
      · exact h
      · intro t ht
        replace ht : t ∈ st.tasks := ht
        obtain ⟨e, he, heq⟩ := h t ht
        refine ⟨(if e.id == id then applyEmployeePatch p e else e), ?_, ?_⟩
        · exact List.mem_map_of_mem _ he
        · by_cases hid : (e.id == id) = true
          · rw [if_pos hid]
            exact heq
          · rw [if_neg hid]
            exact heq

/-- deleteEmployee preserves referential integrity: the cascade removes
exactly the tasks of the deleted employee. -/
theorem refIntegrity_deleteEmployee (st : Store) (id : Int)
    (h : RefIntegrity st) : RefIntegrity (deleteEmployee st id).1 := by
  unfold deleteEmployee
  split
  · intro t ht
    replace ht : t ∈ st.tasks.filter (fun t => !(t.employeeId == id)) := ht
    have ht' := List.mem_filter.mp ht
    obtain ⟨e, he, heq⟩ := h t ht'.1
    refine ⟨e, ?_, heq⟩
    refine List.mem_filter.mpr ⟨he, ?_⟩
    have hne : (t.employeeId == id) = false := by simpa using ht'.2
    simp only [heq]
    simpa using hne
  · exact h

/-- createTask preserves referential integrity: the FOREIGN KEY check
guarantees the inserted row references an existing employee. -/
theorem refIntegrity_createTask (st : Store) (now : Nat) (ins : InsertTask)
    (h : RefIntegrity st) : RefIntegrity (createTask st now ins).1 := by
  unfold createTask
  rcases h1 : (!(statusValues.contains (strOrDefault ins.status "pending"))) with _ | _
  · rcases h2 : (!(priorityValues.contains (strOrDefault ins.priority "medium"))) with _ | _
    · rcases hge : getEmployeeById st ins.employeeId with _ | e
      · simp only [h1, h2, hge, Bool.false_eq_true, if_false, Option.isNone_none, if_true]
        exact h
      · simp only [h1, h2, hge, Bool.false_eq_true, if_false, Option.isNone_some]
        intro t ht
        replace ht : t ∈ st.tasks ++
          [⟨st.nextTaskId, ins.title, jsOrNull ins.description,
            strOrDefault ins.status "pending", ins.employeeId,
            jsOrNull ins.dueDate, strOrDefault ins.priority "medium", now, now⟩] := ht
        rcases List.mem_append.mp ht with ht | ht
        · exact h t ht
        · obtain ⟨hmem, hid⟩ := mem_id_of_getEmployeeById hge
          refine ⟨e, hmem, ?_⟩
          rcases List.mem_singleton.mp ht with rfl
          exact hid
    · simp only [h1, h2, Bool.false_eq_true, if_false, if_true]
      exact h
  · simp only [h1, if_true]
    exact h

/-- updateTask preserves referential integrity: the FOREIGN KEY check on
a supplied employee id, and the untouched value otherwise. -/
theorem refIntegrity_updateTask (st : Store) (now : Nat) (id : Int) (p : TaskPatch)
    (h : RefIntegrity st) : RefIntegrity (updateTask st now id p).1 := by
  unfold updateTask
  split
  · exact h
  · split
    · exact h
    · split
      · exact h
      · split
        next hfk => exact h
        next hfk =>
          intro t ht
          replace ht : t ∈ st.tasks.map
            (fun u => if u.id == id then applyTaskPatch now p u else u) := ht
          obtain ⟨u, hu, hut⟩ := List.mem_map.mp ht
          by_cases hid : (u.id == id) = true
          · rw [if_pos hid] at hut
            subst hut
            rcases hpe : p.employeeId with _ | eid
            · obtain ⟨e, he, heq⟩ := h u hu
              refine ⟨e, he, ?_⟩
              simpa [applyTaskPatch, hpe] using heq
            · simp only [hpe] at hfk
              rcases hge : getEmployeeById st eid with _ | e
              · rw [hge] at hfk
                exact absurd rfl hfk
              · obtain ⟨hmem, hide⟩ := mem_id_of_getEmployeeById hge
                refine ⟨e, hmem, ?_⟩
                simpa [applyTaskPatch, hpe] using hide
          · rw [if_neg hid] at hut
            subst hut
            exact h u hu

/-- deleteTask preserves referential integrity: the task table shrinks. -/
theorem refIntegrity_deleteTask (st : Store) (id : Int)
    (h : RefIntegrity st) : RefIntegrity (deleteTask st id).1 := by
  unfold deleteTask
  split
  · intro t ht
    replace ht : t ∈ st.tasks.filter (fun t => !(t.id == id)) := ht
    exact h t (List.mem_filter.mp ht).1
  · exact h

/-- Every storage call preserves referential integrity. -/
theorem refIntegrity_applyOp (st : Store) (op : Op) (h : RefIntegrity st) :
    RefIntegrity (applyOp st op) := by
  cases op with
  | createEmployee now ins => exact refIntegrity_createEmployee st now ins h
  | updateEmployee id p => exact refIntegrity_updateEmployee st id p h
  | deleteEmployee id => exact refIntegrity_deleteEmployee st id h
  | createTask now ins => exact refIntegrity_createTask st now ins h
  | updateTask now id p => exact refIntegrity_updateTask st now id p h
  | deleteTask id => exact refIntegrity_deleteTask st id h

/-- Referential integrity holds in every reachable store. -/
theorem refIntegrity_reachable (st : Store) (h : Reachable st) : RefIntegrity st := by
  induction h with
  | init =>
    intro t ht
    simp [emptyStore] at ht
  | step op _ ih => exact refIntegrity_applyOp _ op ih

/-- C1: after deleteEmployee(id) the listing of tasks contains no task of
that employee and the listing of employees no longer contains the
employee; referential integrity holds in every reachable store, so at
the raw table level the delete also leaves no task referencing id. -/
theorem spec_c1 (st : Store) (id : Int) :
    (∀ r ∈ getAllTasks (deleteEmployee st id).1 none, r.task.employeeId ≠ id)
    ∧ (∀ e ∈ getAllEmployees (deleteEmployee st id).1, e.id ≠ id)
    ∧ (Reachable st → RefIntegrity st)
    ∧ (Reachable st → ∀ t ∈ (deleteEmployee st id).1.tasks, t.employeeId ≠ id) := by
  refine ⟨?_, ?_, fun h => refIntegrity_reachable st h, ?_⟩
  · intro r hr
    have hj := mem_getAllTasks_none.mp hr
    obtain ⟨t, ht, e, he, hid, hre⟩ := mem_joinRows.mp hj
    have hne := deleteEmployee_no_employee e he
    subst hre
    simpa [← hid] using hne
  · intro e he
    have hmem : e ∈ (deleteEmployee st id).1.employees := by
      unfold getAllEmployees at he
      exact (List.mergeSort_perm _ _).mem_iff.mp he
    exact deleteEmployee_no_employee e hmem
  · intro hreach t ht
    have hinv := refIntegrity_reachable st hreach
    unfold deleteEmployee at ht
    by_cases hc : st.employees.any (fun e => e.id == id) = true
    · rw [if_pos hc] at ht
      replace ht : t ∈ st.tasks.filter (fun t => !(t.employeeId == id)) := ht
      have := (List.mem_filter.mp ht).2
      simpa using this
    · rw [if_neg hc] at ht
      replace ht : t ∈ st.tasks := ht
      obtain ⟨e, he, heq⟩ := hinv t ht
      intro hcontra
      rw [List.any_eq_true] at hc
      push_neg at hc
      exact (by simpa using hc e he : e.id ≠ id) (heq.trans hcontra)

/-- Witness for C1 at a concrete reachable store holding one employee and
one task of that employee. -/
theorem spec_c1_witness :
    RefIntegrity
      (applyOp (applyOp emptyStore (.createEmployee 1 ⟨"Ann", "ann@example.com", "Eng", "Dev"⟩))
        (.createTask 2 ⟨"T", none, "pending", 1, none, "medium"⟩))
    ∧ ∀ t ∈ (deleteEmployee
        (applyOp (applyOp emptyStore (.createEmployee 1 ⟨"Ann", "ann@example.com", "Eng", "Dev"⟩))
          (.createTask 2 ⟨"T", none, "pending", 1, none, "medium"⟩)) 1).1.tasks,
        t.employeeId ≠ 1 :=
  ⟨(spec_c1 (applyOp (applyOp emptyStore (.createEmployee 1 ⟨"Ann", "ann@example.com", "Eng", "Dev"⟩))
      (.createTask 2 ⟨"T", none, "pending", 1, none, "medium"⟩)) 1).2.2.1
      (Reachable.step _ (Reachable.step _ Reachable.init)),
   (spec_c1 (applyOp (applyOp emptyStore (.createEmployee 1 ⟨"Ann", "ann@example.com", "Eng", "Dev"⟩))
      (.createTask 2 ⟨"T", none, "pending", 1, none, "medium"⟩)) 1).2.2.2
      (Reachable.step _ (Reachable.step _ Reachable.init))⟩

/-- Nat division (200 c + t) / (2 t) is the nearest-integer rounding of
the percentage 100 c / t, matching Math.round of a nonnegative value. -/
theorem completionRate_round (c t : ℕ) (ht : 0 < t) :
    (((200 * c + t) / (2 * t) : ℕ) : ℤ) = round ((c * 100 : ℚ) / t) := by
  have ht' : (t : ℚ) ≠ 0 := by positivity
  have hx : (c * 100 : ℚ) / t + 1 / 2 = ((200 * c + t : ℕ) : ℚ) / ((2 * t : ℕ) : ℚ) := by
    push_cast
    field_simp
    ring
  rw [round_eq, hx, ← Int.natCast_floor_eq_floor (by positivity), Nat.floor_div_nat,
    Nat.floor_natCast]

/-- C4: with a truthy status and employee filter the listing is exactly
the join rows satisfying both conditions, ordered by creation time
descending; with no filter it is the whole join in that order. -/
theorem spec_c4 (st : Store) (s : String) (eid : Int) (hs : s ≠ "") (he : eid ≠ 0) :
    (∀ r, r ∈ getAllTasks st (some ⟨some s, some eid⟩) ↔
      ∃ t ∈ st.tasks, ∃ e ∈ st.employees,
        e.id = t.employeeId ∧ t.status = s ∧ t.employeeId = eid ∧ r = ⟨t, e.name⟩)
    ∧ (getAllTasks st (some ⟨some s, some eid⟩)).Pairwise
        (fun a b => b.task.createdAt ≤ a.task.createdAt)
    ∧ (∀ r, r ∈ getAllTasks st none ↔
        ∃ t ∈ st.tasks, ∃ e ∈ st.employees, e.id = t.employeeId ∧ r = ⟨t, e.name⟩)
    ∧ (getAllTasks st none).Pairwise (fun a b => b.task.createdAt ≤ a.task.createdAt) := by
  have hs' : (s == "") = false := beq_eq_false_iff_ne.mpr hs
  have he' : (eid == 0) = false := beq_eq_false_iff_ne.mpr he
  refine ⟨?_, pairwise_getAllTasks st _, ?_, pairwise_getAllTasks st _⟩
  · intro r
    have hmem : r ∈ getAllTasks st (some ⟨some s, some eid⟩) ↔
        r ∈ ((joinRows st).filter (fun r => r.task.status == s)).filter
          (fun r => r.task.employeeId == eid) := by
      unfold getAllTasks
      simp only [hs', he', Bool.false_eq_true, if_false]
      exact (List.mergeSort_perm _ _).mem_iff
    rw [hmem, List.mem_filter, List.mem_filter, mem_joinRows]
    constructor
    · rintro ⟨⟨⟨t, ht, e, hee, hid, rfl⟩, hst⟩, hemp⟩
      exact ⟨t, ht, e, hee, hid, by simpa using hst, by simpa using hemp, rfl⟩
    · rintro ⟨t, ht, e, hee, hid, hst, hemp, rfl⟩
      exact ⟨⟨⟨t, ht, e, hee, hid, rfl⟩, by simpa using hst⟩, by simpa using hemp⟩
  · intro r
    rw [mem_getAllTasks_none, mem_joinRows]

/-- Witness for C4 at a concrete store and filter pair. -/
theorem spec_c4_witness :
    ((⟨1, "T", none, "completed", 5, none, "medium", 1, 1⟩ : Task) ∈
        List.map (fun r => r.task)
          (getAllTasks
            ⟨[⟨5, "Ann", "ann@example.com", "Eng", "Dev", 0⟩],
             [⟨1, "T", none, "completed", 5, none, "medium", 1, 1⟩], 6, 2⟩
            (some ⟨some "completed", some 5⟩))) := by
  have h := ((spec_c4
    ⟨[⟨5, "Ann", "ann@example.com", "Eng", "Dev", 0⟩],
     [⟨1, "T", none, "completed", 5, none, "medium", 1, 1⟩], 6, 2⟩
    "completed" 5 (by decide) (by decide)).1
    ⟨⟨1, "T", none, "completed", 5, none, "medium", 1, 1⟩, "Ann"⟩).mpr
    ⟨⟨1, "T", none, "completed", 5, none, "medium", 1, 1⟩, by decide,
     ⟨5, "Ann", "ann@example.com", "Eng", "Dev", 0⟩, by decide, rfl, rfl, rfl, rfl⟩
  exact List.mem_map_of_mem _ h

/-- C3: the dashboard reports the total and completed task counts, a
completion rate that is the rounded integer percentage (0 on an empty
task table, with no division fault), the three per-status counts, and a
per-employee task count covering every employee (zero-task ones
included) ordered by task count descending. -/
theorem spec_c3 (st : Store) :
    (getDashboardStats st).totalTasks = st.tasks.length
    ∧ (getDashboardStats st).completedTasks
        = st.tasks.countP (fun t => t.status == "completed")
    ∧ (st.tasks.length = 0 → (getDashboardStats st).completionRate = 0)
    ∧ (0 < st.tasks.length →
        ((getDashboardStats st).completionRate : ℤ)
          = round ((st.tasks.countP (fun t => t.status == "completed") * 100 : ℚ)
              / st.tasks.length))
    ∧ (getDashboardStats st).tasksByStatus.pending
        = st.tasks.countP (fun t => t.status == "pending")
    ∧ (getDashboardStats st).tasksByStatus.inProgress
        = st.tasks.countP (fun t => t.status == "in-progress")
    ∧ (getDashboardStats st).tasksByStatus.completed
        = st.tasks.countP (fun t => t.status == "completed")
    ∧ (∀ e ∈ st.employees,
        (⟨e.id, e.name, st.tasks.countP (fun t => t.employeeId == e.id)⟩ : EmployeeTaskCount)
          ∈ (getDashboardStats st).tasksByEmployee)
    ∧ (getDashboardStats st).tasksByEmployee.length = st.employees.length
    ∧ (getDashboardStats st).tasksByEmployee.Pairwise
        (fun a b => b.taskCount ≤ a.taskCount) := by
  refine ⟨rfl, (List.countP_eq_length_filter _ _).symm, ?_, ?_,
    (List.countP_eq_length_filter _ _).symm, (List.countP_eq_length_filter _ _).symm,
    (List.countP_eq_length_filter _ _).symm, ?_, ?_, ?_⟩
  · intro h
    simp only [getDashboardStats]
    rw [h]
    rfl
  · intro h
    have hrate : (getDashboardStats st).completionRate
        = (200 * (st.tasks.filter (fun t => t.status == "completed")).length
            + st.tasks.length) / (2 * st.tasks.length) := by
      simp only [getDashboardStats]
      rw [if_pos h]
    rw [hrate, List.countP_eq_length_filter]
    exact completionRate_round _ _ h
  · intro e he
    simp only [getDashboardStats]
    rw [List.countP_eq_length_filter]
    refine ((List.mergeSort_perm _ _).mem_iff).mpr ?_
    exact List.mem_map_of_mem
      (fun e => (⟨e.id, e.name,
        (st.tasks.filter (fun t => t.employeeId == e.id)).length⟩ : EmployeeTaskCount)) he
  · simp only [getDashboardStats]
    rw [(List.mergeSort_perm _ _).length_eq, List.length_map]
  · simp only [getDashboardStats]
    refine List.Pairwise.imp ?_ (List.sorted_mergeSort ?_ ?_ _)
    · intro a b h
      simpa [countDesc] using h
    · intro a b c hab hbc
      simp only [countDesc, decide_eq_true_eq] at *
      omega
    · intro a b
      simp only [countDesc]
      rcases Nat.le_total b.taskCount a.taskCount with h | h <;> simp [h]

/-- Witness for C3: the completion-rate equation at a concrete store with
ten tasks of which three are completed. -/
theorem spec_c3_witness :
    ((getDashboardStats
      ⟨[⟨1, "Ann", "ann@example.com", "Eng", "Dev", 0⟩],
       [⟨1, "A", none, "completed", 1, none, "medium", 1, 1⟩,
        ⟨2, "B", none, "completed", 1, none, "medium", 1, 1⟩,
        ⟨3, "C", none, "completed", 1, none, "medium", 1, 1⟩,
        ⟨4, "D", none, "pending", 1, none, "medium", 1, 1⟩,
        ⟨5, "E", none, "pending", 1, none, "medium", 1, 1⟩,
        ⟨6, "F", none, "pending", 1, none, "medium", 1, 1⟩,
        ⟨7, "G", none, "in-progress", 1, none, "medium", 1, 1⟩,
        ⟨8, "H", none, "in-progress", 1, none, "medium", 1, 1⟩,
        ⟨9, "I", none, "in-progress", 1, none, "medium", 1, 1⟩,
        ⟨10, "J", none, "pending", 1, none, "medium", 1, 1⟩], 2, 11⟩).completionRate : ℤ)
    = round ((3 * 100 : ℚ) / 10) := by
  have h := (spec_c3
    ⟨[⟨1, "Ann", "ann@example.com", "Eng", "Dev", 0⟩],
     [⟨1, "A", none, "completed", 1, none, "medium", 1, 1⟩,
      ⟨2, "B", none, "completed", 1, none, "medium", 1, 1⟩,
      ⟨3, "C", none, "completed", 1, none, "medium", 1, 1⟩,
      ⟨4, "D", none, "pending", 1, none, "medium", 1, 1⟩,
      ⟨5, "E", none, "pending", 1, none, "medium", 1, 1⟩,
      ⟨6, "F", none, "pending", 1, none, "medium", 1, 1⟩,
      ⟨7, "G", none, "in-progress", 1, none, "medium", 1, 1⟩,
      ⟨8, "H", none, "in-progress", 1, none, "medium", 1, 1⟩,
      ⟨9, "I", none, "in-progress", 1, none, "medium", 1, 1⟩,
      ⟨10, "J", none, "pending", 1, none, "medium", 1, 1⟩], 2, 11⟩).2.2.2.1 (by decide)
  have hc : (List.countP (fun t => t.status == "completed")
      [(⟨1, "A", none, "completed", 1, none, "medium", 1, 1⟩ : Task),
       ⟨2, "B", none, "completed", 1, none, "medium", 1, 1⟩,
       ⟨3, "C", none, "completed", 1, none, "medium", 1, 1⟩,
       ⟨4, "D", none, "pending", 1, none, "medium", 1, 1⟩,
       ⟨5, "E", none, "pending", 1, none, "medium", 1, 1⟩,
       ⟨6, "F", none, "pending", 1, none, "medium", 1, 1⟩,
       ⟨7, "G", none, "in-progress", 1, none, "medium", 1, 1⟩,
       ⟨8, "H", none, "in-progress", 1, none, "medium", 1, 1⟩,
       ⟨9, "I", none, "in-progress", 1, none, "medium", 1, 1⟩,
       ⟨10, "J", none, "pending", 1, none, "medium", 1, 1⟩]) = 3 := by decide
  rw [hc] at h
  simpa using h

/-- C7 counterexample: a payload that passes validation with an
empty-string description is stored with a NULL description, not with the
supplied value, because the source coalesces with description || null. -/
theorem spec_c7_counterexample :
    validateTaskBody ⟨some "T", some (some ""), none, some 1, none, none⟩
      = .ok ⟨"T", some "", "pending", 1, none, "medium"⟩
    ∧ createTask ⟨[⟨1, "Ann", "ann@example.com", "Eng", "Dev", 0⟩], [], 2, 1⟩ 5
        ⟨"T", some "", "pending", 1, none, "medium"⟩
      = (⟨[⟨1, "Ann", "ann@example.com", "Eng", "Dev", 0⟩],
          [⟨1, "T", none, "pending", 1, none, "medium", 5, 5⟩], 2, 2⟩,
         .ok ⟨1, "T", none, "pending", 1, none, "medium", 5, 5⟩)
    ∧ (⟨1, "T", none, "pending", 1, none, "medium", 5, 5⟩ : Task).description
        ≠ (⟨"T", some "", "pending", 1, none, "medium"⟩ : InsertTask).description := by
  refine ⟨by decide, by decide, by decide⟩

/-- C7 amended: createTask stores title and employeeId as given, status
and priority as supplied (already defaulted by the validation layer when
absent), and description and dueDate as supplied when the string is
non-empty but NULL when absent, null, or the empty string; the created
row is returned and appended. -/
theorem spec_c7_amended :
    (∀ (st : Store) (now : Nat) (ins : InsertTask) (e : Employee),
      getEmployeeById st ins.employeeId = some e →
      ins.status ∈ statusValues → ins.priority ∈ priorityValues →
      createTask st now ins =
        ({ st with
            tasks := st.tasks ++
              [{ id := st.nextTaskId, title := ins.title,
                 description := match ins.description with
                                | some s => if s = "" then none else some s
                                | none => none,
                 status := ins.status, employeeId := ins.employeeId,
                 dueDate := match ins.dueDate with
                            | some s => if s = "" then none else some s
                            | none => none,
                 priority := ins.priority, createdAt := now, updatedAt := now }],
            nextTaskId := st.nextTaskId + 1 },
         Except.ok
           { id := st.nextTaskId, title := ins.title,
             description := match ins.description with
                            | some s => if s = "" then none else some s
                            | none => none,
             status := ins.status, employeeId := ins.employeeId,
             dueDate := match ins.dueDate with
                        | some s => if s = "" then none else some s
                        | none => none,
             priority := ins.priority, createdAt := now, updatedAt := now }))
    ∧ (∀ (b : TaskBody) (ins : InsertTask), validateTaskBody b = .ok ins →
        (b.status = none → ins.status = "pending")
        ∧ (b.priority = none → ins.priority = "medium")
        ∧ (b.description = none → ins.description = none)
        ∧ (b.dueDate = none → ins.dueDate = none)
        ∧ b.title = some ins.title
        ∧ b.employeeId = some ins.employeeId) := by
  constructor
  · intro st now ins e hge hs hp
    have hdesc : ∀ v : Option String, jsOrNull v =
        (match v with
         | some s => if s = "" then none else some s
         | none => none) := by
      intro v
      rcases v with _ | s
      · rfl
      · by_cases hse : s = "" <;> simp [jsOrNull, hse]
    rcases (show ins.status = "pending" ∨ ins.status = "in-progress"
        ∨ ins.status = "completed" from by simpa [statusValues] using hs)
      with h1 | h1 | h1 <;>
    rcases (show ins.priority = "low" ∨ ins.priority = "medium"
        ∨ ins.priority = "high" from by simpa [priorityValues] using hp)
      with h2 | h2 | h2 <;>
    simp [createTask, strOrDefault, hge, hdesc, h1, h2, statusValues, priorityValues]
  · intro b ins hval
    simp only [validateTaskBody] at hval
    rcases herr : (taskFieldErrors b).isEmpty with _ | _
    · rw [herr] at hval
      simp at hval
    · rw [herr] at hval
      rcases hbt : b.title with _ | t <;> rcases hbe : b.employeeId with _ | i <;>
        rw [hbt, hbe] at hval <;> simp at hval
      obtain ⟨rfl⟩ := hval
      refine ⟨?_, ?_, ?_, ?_, ?_, ?_⟩
      · intro hbs
        simp [hbs]
      · intro hbp
        simp [hbp]
      · intro hbd
        simp [hbd]
      · intro hbd
        simp [hbd]
      · rfl
      · rfl

/-- Witness for C7 amended at a concrete store and input. -/
theorem spec_c7_amended_witness :
    createTask ⟨[⟨1, "Ann", "ann@example.com", "Eng", "Dev", 0⟩], [], 2, 1⟩ 5
      ⟨"T", some "d", "pending", 1, some "2025-01-02", "medium"⟩
    = (⟨[⟨1, "Ann", "ann@example.com", "Eng", "Dev", 0⟩],
        [⟨1, "T", some "d", "pending", 1, some "2025-01-02", "medium", 5, 5⟩], 2, 2⟩,
       .ok ⟨1, "T", some "d", "pending", 1, some "2025-01-02", "medium", 5, 5⟩) := by
  have h := spec_c7_amended.1 ⟨[⟨1, "Ann", "ann@example.com", "Eng", "Dev", 0⟩], [], 2, 1⟩ 5
    ⟨"T", some "d", "pending", 1, some "2025-01-02", "medium"⟩
    ⟨1, "Ann", "ann@example.com", "Eng", "Dev", 0⟩ rfl (by decide) (by decide)
  exact h.trans (by decide)

/-- C8 counterexample: the id string 12abc is not a numeric value, yet
parseInt coerces it to 12 and the fetch succeeds with 200 instead of
being rejected with 400; likewise 0x10 is coerced (to sixteen) and a
vertical-tab-prefixed 12 is trimmed and coerced, while a bare 0x prefix
is NaN. -/
theorem spec_c8_counterexample :
    parseIntJs "12abc" = some 12
    ∧ parseIntJs "0x10" = some 16
    ∧ parseIntJs "\x0B12" = some 12
    ∧ parseIntJs "0x" = none
    ∧ (getEmployeeRoute ⟨[⟨12, "Ann", "ann@example.com", "Eng", "Dev", 0⟩], [], 13, 1⟩
        "12abc").status = 200
    ∧ (getEmployeeRoute ⟨[⟨12, "Ann", "ann@example.com", "Eng", "Dev", 0⟩], [], 13, 1⟩
        "12abc").status ≠ 400 := by
  refine ⟨by decide, by decide, by decide, by decide, rfl, by decide⟩

/-- C8 amended: an id string on which parseInt yields NaN (after
ECMAScript whitespace trimming, an optional sign and an optional 0x hex
prefix, no digit of the active radix follows) is rejected with 400 on
the id routes of both resources, and a non-empty employee_id query
string that parses to NaN makes GET /api/tasks answer 400; any string
parseInt can partially read, such as 12abc or 0x10, is instead silently
coerced to that parsed value. -/
theorem spec_c8_amended (st : Store) (s : String) (h : parseIntJs s = none) :
    (getEmployeeRoute st s).status = 400
    ∧ (∀ body, putEmployeeRoute st s body = (st, .failure 400 "Invalid employee ID"))
    ∧ deleteEmployeeRoute st s = (st, .failure 400 "Invalid employee ID")
    ∧ (getTaskRoute st s).status = 400
    ∧ (∀ now body, putTaskRoute st now s body = (st, .failure 400 "Invalid task ID"))
    ∧ deleteTaskRoute st s = (st, .failure 400 "Invalid task ID")
    ∧ (s ≠ "" → ∀ sq, (getTasksRoute st sq (some s)).status = 400) := by
  refine ⟨?_, ?_, ?_, ?_, ?_, ?_, ?_⟩
  · unfold getEmployeeRoute
    rw [h]
    rfl
  · intro body
    unfold putEmployeeRoute
    rw [h]
  · unfold deleteEmployeeRoute
    rw [h]
  · unfold getTaskRoute
    rw [h]
    rfl
  · intro now body
    unfold putTaskRoute
    rw [h]
  · unfold deleteTaskRoute
    rw [h]
  · intro hne sq
    have htr : (s != "") = true := by simpa using hne
    simp only [getTasksRoute, Option.getD_some, htr, h, Option.isNone_none, Bool.true_and,
      if_true]
    rw [apply_ite RouteResult.status]
    simp [RouteResult.status]

/-- Witness for C8 amended at a concrete store and id string. -/
theorem spec_c8_amended_witness :
    (getEmployeeRoute emptyStore "abc").status = 400
    ∧ deleteEmployeeRoute emptyStore "abc" = (emptyStore, .failure 400 "Invalid employee ID")
    ∧ deleteTaskRoute emptyStore "abc" = (emptyStore, .failure 400 "Invalid task ID") :=
  ⟨(spec_c8_amended emptyStore "abc" (by decide)).1,
   (spec_c8_amended emptyStore "abc" (by decide)).2.2.1,
   (spec_c8_amended emptyStore "abc" (by decide)).2.2.2.2.2.1⟩
